import Mathlib

/-!
Verification of the `priceforagent` gateway's core subsystems, shallowly
embedded from the Go sources:

* `ratelimit.Limiter` (fixed-window per-client rate limiting and
  multi-granularity usage accounting over Redis counters),
* the `rateLimitMiddleware` admission pipeline from `cmd/server/main.go`,
* `price.WSClient` (streaming quote cache, re-subscription on reconnect)
  and `price.DynamicSubscriber` (protected top-10 set, on-demand
  subscriptions, staleness pruning) from `internal/price`.

Redis is modelled as a flat key/value store of 64-bit integer counters with
TTL bookkeeping and an outage flag; `INCR` follows Redis semantics (missing
key counts as 0, overflow past the signed 64-bit range is an error).
Time is modelled by the integers the Go code derives from it: a Unix second
for rate windows and a calendar-day / hour index for usage buckets.
-/

namespace PriceForAgent

/-- Decimal digit list of a natural number, most significant digit first.
This models the digit sequence produced by Go's `%d` formatting (and by
`time.Format` date patterns, which render each component in decimal). -/
def natDigits (n : Nat) : List Nat :=
  if n < 10 then [n] else natDigits (n / 10) ++ [n % 10]
termination_by n
decreasing_by exact Nat.div_lt_self (by omega) (by omega)

/-- Decimal string of a natural number: the model of `%d` formatting used in
the Redis key `Sprintf` calls. -/
def natString (n : Nat) : String := ⟨(natDigits n).map Nat.digitChar⟩

/-! ## Redis counter store

The shared counter store used by `ratelimit.Limiter`.  `data` holds the
integer value of each key (`none` = key absent), `ttl` the expiry set by
`EXPIRE` (in seconds), and `failing` models a store outage in which every
command returns an error. -/

/-- Distinguishes the `redis.Nil` "key absent" reply from a transport
error of the shared store. -/
inductive RErr
  | nilKey
  | outage
deriving DecidableEq

structure Store where
  data : String → Option Int
  ttl : String → Option Nat
  failing : Bool

/-- Largest signed 64-bit integer: Redis `INCR` operates on 64-bit signed
integers and replies with an error instead of wrapping past this value. -/
def int64Max : Int := 9223372036854775807

/-- Redis `INCR`: an absent key counts as 0; returns the incremented value. -/
def Store.incr (s : Store) (k : String) : Except Unit (Int × Store) :=
  if s.failing then .error ()
  else
    let v := (s.data k).getD 0
    if v + 1 > int64Max then .error ()
    else .ok (v + 1, { s with data := fun k' => if k' = k then some (v + 1) else s.data k' })

/-- `INCR` with the error discarded, for the Go call sites that ignore the
returned error (`IncrementUsage`). -/
def Store.incrD (s : Store) (k : String) : Store :=
  match s.incr k with
  | .ok (_, s') => s'
  | .error _ => s

/-- Redis `EXPIRE` (error ignored at every call site). -/
def Store.expire (s : Store) (k : String) (secs : Nat) : Store :=
  if s.failing then s
  else { s with ttl := fun k' => if k' = k then some secs else s.ttl k' }

/-- Redis `GET` parsed as an integer. -/
def Store.get (s : Store) (k : String) : Except RErr Int :=
  if s.failing then .error .outage
  else
    match s.data k with
    | none => .error .nilKey
    | some v => .ok v

/-! ## ratelimit.Limiter

Embedding of the `ratelimit` package (`Limiter`, `Allow`, `IncrementUsage`,
`GetDailyUsage`, `GetLast7DaysUsage`).  A Go `time.Time` is represented by
the indices the code extracts from it: the calendar day
(`Format "20060102"`) and the hour within the day (`Format "15"`); the
rate-limit window uses the Unix second directly. -/

structure GoTime where
  day : Nat
  hour : Nat

structure Limiter where
  limit : Int
  windowSecs : Nat

/-- `fmt.Sprintf("ratelimit:%s:%d", key, now)` -/
def ratelimitKey (key : String) (now : Nat) : String :=
  "ratelimit:" ++ key ++ ":" ++ natString now

/-- `fmt.Sprintf("usage:total:%s", key)` -/
def usageTotalKey (key : String) : String :=
  "usage:total:" ++ key

/-- `fmt.Sprintf("usage:daily:%s:%s", key, now.Format("20060102"))` -/
def usageDailyKey (key : String) (day : Nat) : String :=
  "usage:daily:" ++ key ++ ":" ++ natString day

/-- `fmt.Sprintf("usage:hourly:%s:%s", key, now.Format("2006010215"))`:
the day rendering followed by the hour rendering. -/
def usageHourlyKey (key : String) (day hour : Nat) : String :=
  "usage:hourly:" ++ key ++ ":" ++ natString day ++ natString hour

/-- `Limiter.Allow` from `ratelimit`: `INCR` the `(key, current second)`
window counter, set a 2x-window expiry on the first hit, clamp the
remaining budget at zero, allow iff `count <= limit`.  Mirrors the Go
return `(allowed, remaining, err)` with `err` as a flag; on a store error
it returns `(false, 0, error)` with the store unchanged. -/
def Limiter.Allow (l : Limiter) (key : String) (now : Nat) (s : Store) :
    (Bool × Int × Bool) × Store :=
  let redisKey := ratelimitKey key now
  match s.incr redisKey with
  | .error _ => ((false, 0, true), s)
  | .ok (count, s1) =>
    let s2 := if count = 1 then s1.expire redisKey (l.windowSecs * 2) else s1
    let remaining := l.limit - count
    let remaining := if remaining < 0 then 0 else remaining
    ((decide (count ≤ l.limit), remaining, false), s2)

/-- `Limiter.IncrementUsage`: bump the lifetime total, the per-day bucket
(kept 8 days) and the per-hour bucket (kept 25 hours); all store errors
are ignored and the function always reports success. -/
def Limiter.IncrementUsage (_l : Limiter) (key : String) (now : GoTime) (s : Store) : Store :=
  let s1 := s.incrD (usageTotalKey key)
  let s2 := s1.incrD (usageDailyKey key now.day)
  let s3 := s2.expire (usageDailyKey key now.day) (8 * 24 * 3600)
  let s4 := s3.incrD (usageHourlyKey key now.day now.hour)
  s4.expire (usageHourlyKey key now.day now.hour) (25 * 3600)

/-- `Limiter.GetDailyUsage`: read one day bucket; `redis.Nil` maps to
`(0, no error)`, other errors are surfaced (second component). -/
def Limiter.GetDailyUsage (_l : Limiter) (key : String) (date : GoTime) (s : Store) :
    Int × Bool :=
  match s.get (usageDailyKey key date.day) with
  | .error .nilKey => (0, false)
  | .error .outage => (0, true)
  | .ok v => (v, false)

/-- `Limiter.GetLast7DaysUsage`: query-time sum of the last 7 day buckets
(`now.AddDate(0,0,-i)` for `i = 0..6`); buckets whose read errors are
skipped. -/
def Limiter.GetLast7DaysUsage (_l : Limiter) (key : String) (now : GoTime) (s : Store) : Int :=
  (List.range 7).foldl
    (fun total i =>
      match s.get (usageDailyKey key (now.day - i)) with
      | .ok count => total + count
      | .error _ => total)
    0

/-- The limiter built in `main`: `ratelimit.NewLimiter(redisAddr, 2)` with a
one-second window. -/
def prodLimiter : Limiter := ⟨2, 1⟩

/-! ## rateLimitMiddleware (cmd/server/main.go) -/

/-- The global admission cap hard-coded in the middleware's responses. -/
def globalCap : Int := 10000000

/-- The shared counter key of the global admission counter (its exact name
lives outside the provided sources; it is distinct from every per-client
pattern). -/
def globalUsageKey : String := "usage:global:total"

/-- Modelled from the spec: the body of `Limiter.CheckGlobalLimit` is not
among the provided sources (only its caller `rateLimitMiddleware` is).
Per spec section 4.4 the global admission check keeps "a single shared
counter incremented on every admitted request, compared against a fixed
cap" of 10,000,000, and per section 7 shared-store errors fail open. -/
def Limiter.CheckGlobalLimit (_l : Limiter) (s : Store) : (Bool × Int) × Store :=
  match s.incr globalUsageKey with
  | .error _ => ((true, 0), s)
  | .ok (count, s1) =>
    let remaining := globalCap - count
    let remaining := if remaining < 0 then 0 else remaining
    ((decide (count ≤ globalCap), remaining), s1)

/-- Verdict of one pass through `rateLimitMiddleware`: aborted by the
global cap, aborted by the per-client limit, or passed on to the handler
chain (`c.Next()`). -/
inductive Outcome
  | rejectedGlobal
  | rejectedRate
  | proceeded
deriving DecidableEq

/-- `rateLimitMiddleware` from `cmd/server/main.go`: global admission check
first (abort with 429 when over the cap), then the per-client `Allow`;
a per-client store error logs and lets the request proceed (fail-open). -/
def rateLimitMiddleware (key : String) (now : Nat) (s : Store) : Outcome × Store :=
  match prodLimiter.CheckGlobalLimit s with
  | ((gAllowed, _), s1) =>
    if ¬gAllowed then (Outcome.rejectedGlobal, s1)
    else
      match prodLimiter.Allow key now s1 with
      | ((allowed, _, errFlag), s2) =>
        if errFlag then (Outcome.proceeded, s2)
        else if ¬allowed then (Outcome.rejectedRate, s2)
        else (Outcome.proceeded, s2)

/-! ## price.WSClient (internal/price/client.go)

The WebSocket client is embedded as the state its operations read and
write: whether `conn` is non-nil, the quote cache, and the `pairs` slice
stored by `Subscribe` for re-subscription on reconnect.  Network effects
are made explicit: each operation returns the list of subscribe requests
actually written to the connection (each request carries its pair list),
and the success of a write or dial is an input (`sendOk` / `connectOk`). -/

structure Market where
  Open : Bool
  Reason : String
  Session : String
  Timezone : String
deriving DecidableEq

structure PriceData where
  Code : String
  Price : String
  Ask : String
  Bid : String
  Market : PriceForAgent.Market
deriving DecidableEq

structure WSPriceUpdate where
  Code : String
  Price : String
  Ask : String
  Bid : String
  Market : PriceForAgent.Market
deriving DecidableEq

structure WSClient where
  conn : Bool
  cache : String → Option PriceData
  pairs : List String

/-- `WSClient.doSubscribe`: no-op (nil error) when `conn` is nil; otherwise
writes one subscribe message carrying `pairs`, surfacing a write failure
as an error with nothing delivered. -/
def WSClient.doSubscribe (w : WSClient) (pairs : List String) (sendOk : Bool) :
    Except Unit Unit × List (List String) :=
  if ¬w.conn then (.ok (), [])
  else if sendOk then (.ok (), [pairs]) else (.error (), [])

/-- `WSClient.Subscribe`: store `pairs` for re-subscription on reconnect,
then `doSubscribe`. -/
def WSClient.Subscribe (w : WSClient) (pairs : List String) (sendOk : Bool) :
    WSClient × List (List String) :=
  let w1 := { w with pairs := pairs }
  (w1, (w1.doSubscribe pairs sendOk).2)

/-- One successful read of `WSClient.readPump`, applied to the decode
result of the inbound frame (`none` = `json.Unmarshal` failed):
undecodable frames and frames with an empty `code` or `price` are skipped;
a valid update overwrites the cache entry for its code with
`Market{Open: true}`. -/
def WSClient.handleMessage (w : WSClient) (decoded : Option WSPriceUpdate) : WSClient :=
  match decoded with
  | none => w
  | some u =>
    if u.Code = "" ∨ u.Price = "" then w
    else
      { w with
        cache := fun c =>
          if c = u.Code then
            some ⟨u.Code, u.Price, u.Ask, u.Bid, ⟨true, "", "", ""⟩⟩
          else w.cache c }

/-- The reconnect branch of `WSClient.keepAlive`: after a reconnect signal
the client dials again; on failure it just waits for the next signal, on
success it re-issues `doSubscribe` for the stored `pairs` snapshot when
that snapshot is non-empty. -/
def WSClient.keepAliveReconnect (w : WSClient) (connectOk : Bool) (sendOk : Bool) :
    WSClient × List (List String) :=
  if ¬connectOk then (w, [])
  else
    let w1 := { w with conn := true }
    if w.pairs ≠ [] then (w1, (w1.doSubscribe w.pairs sendOk).2)
    else (w1, [])

/-! ## price.DynamicSubscriber (internal/price/dynamic.go)

State of the subscription manager together with the pieces of shared state
it owns: the in-memory subscription set, the protected top-10 list, and
the Redis access ledger (`p4ai:ws:dynamic_pairs`, a hash pair -> last
access Unix second, kept as an association list). -/

structure DynamicSubscriber where
  wsPresent : Bool
  ws : WSClient
  top10 : List String
  subscribed : String → Bool
  ledger : List (String × Nat)

/-- Redis `HSET`: overwrite the field if present, append it otherwise. -/
def hset (l : List (String × Nat)) (k : String) (v : Nat) : List (String × Nat) :=
  if l.any (fun p => p.1 = k) then
    l.map (fun p => if p.1 = k then (k, v) else p)
  else l ++ [(k, v)]

/-- Redis `HDEL`. -/
def hdel (l : List (String × Nat)) (k : String) : List (String × Nat) :=
  l.filter (fun p => p.1 ≠ k)

/-- Marks `pairCode` subscribed in the in-memory set. -/
def DynamicSubscriber.mark (d : DynamicSubscriber) (pairCode : String) (b : Bool) :
    DynamicSubscriber :=
  { d with subscribed := fun c => if c = pairCode then b else d.subscribed c }

/-- `DynamicSubscriber.addSubscription`: no-op when already subscribed;
otherwise, when the client and its connection exist, send the subscribe
request and bail out (leaving the pair unmarked) if the send fails; mark
the pair subscribed in every remaining case — including when the client
or connection is nil, where no send is attempted at all. -/
def DynamicSubscriber.addSubscription (d : DynamicSubscriber) (pairCode : String)
    (sendOk : Bool) : DynamicSubscriber × List (List String) :=
  if d.subscribed pairCode then (d, [])
  else if d.wsPresent ∧ d.ws.conn then
    match d.ws.doSubscribe [pairCode] sendOk with
    | (.error _, _) => (d, [])
    | (.ok _, sent) => (d.mark pairCode true, sent)
  else (d.mark pairCode true, [])

/-- `DynamicSubscriber.OnPairRequested` (the `RecordAccess` event): persist
`pairCode -> now` in the access ledger, then add the subscription when the
pair is not already subscribed. -/
def DynamicSubscriber.OnPairRequested (d : DynamicSubscriber) (now : Nat) (pairCode : String)
    (sendOk : Bool) : DynamicSubscriber × List (List String) :=
  let d1 := { d with ledger := hset d.ledger pairCode now }
  if d1.subscribed pairCode then (d1, [])
  else d1.addSubscription pairCode sendOk

/-- `DynamicSubscriber.removeSubscription`: top-10 pairs are never removed;
anything else is deleted from the in-memory subscription set. -/
def DynamicSubscriber.removeSubscription (d : DynamicSubscriber) (pairCode : String) :
    DynamicSubscriber :=
  if d.top10.contains pairCode then d
  else d.mark pairCode false

/-- The body of the `cleanupStalePairs` loop for one ledger entry `p`:
entries older than the threshold are dropped from the ledger and handed to
`removeSubscription`. -/
def cleanupStep (threshold : Int) (acc : DynamicSubscriber) (p : String × Nat) :
    DynamicSubscriber :=
  if (p.2 : Int) < threshold then
    ({ acc with ledger := hdel acc.ledger p.1 }).removeSubscription p.1
  else acc

/-- `DynamicSubscriber.cleanupStalePairs`: walk the access-ledger snapshot
with the staleness threshold `now - 24h`. -/
def DynamicSubscriber.cleanupStalePairs (d : DynamicSubscriber) (now : Nat) :
    DynamicSubscriber :=
  d.ledger.foldl (cleanupStep ((now : Int) - 86400)) d

/-- `DynamicSubscriber.subscribeTop10`: mark every top-10 pair subscribed
and issue one bulk `Subscribe` for the list when it is non-empty. -/
def DynamicSubscriber.subscribeTop10 (d : DynamicSubscriber) (sendOk : Bool) :
    DynamicSubscriber × List (List String) :=
  if ¬d.wsPresent then (d, [])
  else
    let d1 := { d with subscribed := fun c => if d.top10.contains c then true else d.subscribed c }
    if d1.top10 ≠ [] then
      let r := d1.ws.Subscribe d1.top10 sendOk
      ({ d1 with ws := r.1 }, r.2)
    else (d1, [])

/-! ## Iterated calls and concrete fixtures -/

/-- `n` successive `Limiter.Allow` calls for the same client key within the
same one-second window, tracking only the store. -/
def allowN (key : String) (now : Nat) : Nat → Store → Store
  | 0, s => s
  | n + 1, s => (prodLimiter.Allow key now (allowN key now n s)).2

/-- `n` successive `Limiter.IncrementUsage` calls for the same client key at
the same time. -/
def incrN (key : String) (t : GoTime) : Nat → Store → Store
  | 0, s => s
  | n + 1, s => prodLimiter.IncrementUsage key t (incrN key t n s)

/-- An empty, healthy counter store. -/
def emptyStore : Store := ⟨fun _ => none, fun _ => none, false⟩

/-- A healthy store whose global admission counter already sits at the cap. -/
def globalFullStore : Store :=
  ⟨fun k => if k = "usage:global:total" then some 10000000 else none, fun _ => none, false⟩

/-- A store in outage: every command errors. -/
def failingStore : Store := ⟨fun _ => none, fun _ => none, true⟩

/-- A connected client with an empty cache and no stored pairs. -/
def wsInit : WSClient := ⟨true, fun _ => none, []⟩

/-- A subscriber over `wsInit` with a two-pair protected set, nothing
subscribed and an empty ledger. -/
def dInit : DynamicSubscriber := ⟨true, wsInit, ["BTC", "ETH"], fun _ => false, []⟩

/-- A subscriber whose protected set is `["BTC"]`, with `BTC` and `SOL`
subscribed and both ledger entries long stale. -/
def dStale : DynamicSubscriber :=
  ⟨true, wsInit, ["BTC"], fun c => c == "BTC" || c == "SOL", [("BTC", 0), ("SOL", 0)]⟩

/-! ## Decimal rendering and Redis-key lemmas -/

theorem natDigits_eq (n : Nat) :
    natDigits n = if n < 10 then [n] else natDigits (n / 10) ++ [n % 10] := by
  rw [natDigits]

theorem natDigits_ne_nil (n : Nat) : natDigits n ≠ [] := by
  rw [natDigits_eq]
  split <;> simp

theorem natDigits_lt (n : Nat) : ∀ d ∈ natDigits n, d < 10 := by
  induction n using Nat.strong_induction_on with
  | _ n ih =>
    rw [natDigits_eq]
    split
    · intro d hd
      simp only [List.mem_singleton] at hd
      omega
    · intro d hd
      rcases List.mem_append.mp hd with h1 | h2
      · exact ih (n / 10) (Nat.div_lt_self (by omega) (by omega)) d h1
      · simp only [List.mem_singleton] at h2
        subst h2
        exact Nat.mod_lt _ (by omega)

theorem natDigits_inj : ∀ {m n : Nat}, natDigits m = natDigits n → m = n := by
  intro m
  induction m using Nat.strong_induction_on with
  | _ m ih =>
    intro n h
    rw [natDigits_eq m, natDigits_eq n] at h
    by_cases hm : m < 10 <;> by_cases hn : n < 10
    · rw [if_pos hm, if_pos hn] at h
      simpa using h
    · rw [if_pos hm, if_neg hn] at h
      have hl := congrArg List.length h
      simp only [List.length_singleton, List.length_append] at hl
      have h0 : (natDigits (n / 10)).length = 0 := by omega
      exact absurd (List.eq_nil_of_length_eq_zero h0) (natDigits_ne_nil (n / 10))
    · rw [if_neg hm, if_pos hn] at h
      have hl := congrArg List.length h
      simp only [List.length_singleton, List.length_append] at hl
      have h0 : (natDigits (m / 10)).length = 0 := by omega
      exact absurd (List.eq_nil_of_length_eq_zero h0) (natDigits_ne_nil (m / 10))
    · rw [if_neg hm, if_neg hn] at h
      have hr := congrArg List.reverse h
      simp only [List.reverse_append, List.reverse_singleton, List.singleton_append,
        List.cons.injEq] at hr
      have h1 : m % 10 = n % 10 := hr.1
      have h2 : natDigits (m / 10) = natDigits (n / 10) :=
        List.reverse_injective hr.2
      have h3 : m / 10 = n / 10 := ih (m / 10) (Nat.div_lt_self (by omega) (by omega)) h2
      omega

theorem digitChar_inj_lt : ∀ a, a < 10 → ∀ b, b < 10 →
    Nat.digitChar a = Nat.digitChar b → a = b := by decide

theorem map_digitChar_inj : ∀ (l1 l2 : List Nat), (∀ d ∈ l1, d < 10) → (∀ d ∈ l2, d < 10) →
    l1.map Nat.digitChar = l2.map Nat.digitChar → l1 = l2 := by
  intro l1
  induction l1 with
  | nil => intro l2 _ _ h; cases l2 <;> simp_all
  | cons a t ihl =>
    intro l2 h1 h2 h
    cases l2 with
    | nil => simp at h
    | cons b t2 =>
      simp only [List.map_cons, List.cons.injEq] at h
      have ha : a = b :=
        digitChar_inj_lt a (h1 a (by simp)) b (h2 b (by simp)) h.1
      have ht : t = t2 :=
        ihl t2 (fun d hd => h1 d (by simp [hd])) (fun d hd => h2 d (by simp [hd])) h.2
      rw [ha, ht]

theorem natString_inj {m n : Nat} (h : natString m = natString n) : m = n := by
  have hd : (natDigits m).map Nat.digitChar = (natDigits n).map Nat.digitChar :=
    congrArg String.data h
  exact natDigits_inj (map_digitChar_inj _ _ (natDigits_lt m) (natDigits_lt n) hd)

theorem string_data_append (a b : String) : (a ++ b).data = a.data ++ b.data := rfl

theorem string_append_assoc (a b c : String) : (a ++ b) ++ c = a ++ (b ++ c) :=
  congrArg String.mk (List.append_assoc a.data b.data c.data)

theorem string_append_right_inj {a x y : String} (h : a ++ x = a ++ y) : x = y := by
  have hd : a.data ++ x.data = a.data ++ y.data := by
    rw [← string_data_append, ← string_data_append, h]
  have hxy := List.append_cancel_left hd
  exact congrArg String.mk hxy

theorem take7_ne {a b : String} (h : a.data.take 7 ≠ b.data.take 7) : a ≠ b := by
  intro hab
  exact h (by rw [hab])

theorem take7_append {p x : String} (hp : 7 ≤ p.data.length) :
    (p ++ x).data.take 7 = p.data.take 7 := by
  rw [string_data_append, List.take_append_eq_append_take,
    Nat.sub_eq_zero_of_le hp, List.take_zero, List.append_nil]

theorem ratelimitKey_eq (key : String) (now : Nat) :
    ratelimitKey key now = "ratelimit:" ++ (key ++ (":" ++ natString now)) := by
  unfold ratelimitKey
  rw [string_append_assoc, string_append_assoc]

theorem usageDailyKey_eq (key : String) (day : Nat) :
    usageDailyKey key day = "usage:daily:" ++ (key ++ (":" ++ natString day)) := by
  unfold usageDailyKey
  rw [string_append_assoc, string_append_assoc]

theorem usageHourlyKey_eq (key : String) (day hour : Nat) :
    usageHourlyKey key day hour
      = "usage:hourly:" ++ (key ++ (":" ++ (natString day ++ natString hour))) := by
  unfold usageHourlyKey
  rw [string_append_assoc, string_append_assoc, string_append_assoc]

theorem ratelimitKey_window_ne {key : String} {a b : Nat} (h : a ≠ b) :
    ratelimitKey key a ≠ ratelimitKey key b := by
  intro he
  rw [ratelimitKey_eq, ratelimitKey_eq] at he
  have h1 := string_append_right_inj he
  have h2 := string_append_right_inj h1
  have h3 := string_append_right_inj h2
  exact h (natString_inj h3)

theorem ratelimitKey_ne_globalUsageKey (key : String) (now : Nat) :
    ratelimitKey key now ≠ globalUsageKey := by
  apply take7_ne
  rw [ratelimitKey_eq, take7_append (by decide)]
  decide

theorem usageDailyKey_ne_totalKey (k1 k2 : String) (d : Nat) :
    usageDailyKey k1 d ≠ usageTotalKey k2 := by
  apply take7_ne
  rw [usageDailyKey_eq, take7_append (by decide)]
  unfold usageTotalKey
  rw [take7_append (by decide)]
  decide

theorem usageDailyKey_ne_hourlyKey (k1 k2 : String) (d1 d2 h : Nat) :
    usageDailyKey k1 d1 ≠ usageHourlyKey k2 d2 h := by
  apply take7_ne
  rw [usageDailyKey_eq, take7_append (by decide), usageHourlyKey_eq,
    take7_append (by decide)]
  decide

theorem usageDailyKey_day_ne {key : String} {d d' : Nat} (h : d ≠ d') :
    usageDailyKey key d ≠ usageDailyKey key d' := by
  intro he
  rw [usageDailyKey_eq, usageDailyKey_eq] at he
  have h1 := string_append_right_inj he
  have h2 := string_append_right_inj h1
  have h3 := string_append_right_inj h2
  exact h (natString_inj h3)

/-! ## Store effect lemmas -/

theorem Store.expire_data (s : Store) (k : String) (secs : Nat) :
    (s.expire k secs).data = s.data := by
  unfold Store.expire
  split <;> rfl

theorem Store.expire_failing (s : Store) (k : String) (secs : Nat) :
    (s.expire k secs).failing = s.failing := by
  unfold Store.expire
  split <;> rfl

theorem Store.incr_ok {s : Store} {k : String} {c : Int} {s' : Store}
    (h : s.incr k = .ok (c, s')) :
    s.failing = false ∧ c = (s.data k).getD 0 + 1
      ∧ s'.data = (fun k' => if k' = k then some c else s.data k')
      ∧ s'.ttl = s.ttl ∧ s'.failing = false := by
  unfold Store.incr at h
  by_cases hf : s.failing
  · simp [hf] at h
  · simp only [hf, if_false, Bool.false_eq_true] at h
    split at h
    · simp at h
    · simp only [Except.ok.injEq, Prod.mk.injEq] at h
      obtain ⟨hc, hs⟩ := h
      subst hc
      subst hs
      simp [hf]

theorem Store.incrD_failing (s : Store) (k : String) :
    (s.incrD k).failing = s.failing := by
  unfold Store.incrD
  cases hi : s.incr k with
  | error e => rfl
  | ok p =>
    obtain ⟨p1, p2⟩ := p
    obtain ⟨hf, -, -, -, hf'⟩ := Store.incr_ok hi
    rw [hf, hf']

theorem Store.incrD_data_ne {s : Store} {k k' : String} (h : k' ≠ k) :
    (s.incrD k).data k' = s.data k' := by
  unfold Store.incrD
  cases hi : s.incr k with
  | error e => rfl
  | ok p =>
    obtain ⟨p1, p2⟩ := p
    obtain ⟨-, -, hdata, -, -⟩ := Store.incr_ok hi
    rw [hdata]
    simp [h]

theorem Store.incrD_data_self {s : Store} {k : String} (hf : s.failing = false)
    (hmax : (s.data k).getD 0 + 1 ≤ int64Max) :
    (s.incrD k).data k = some ((s.data k).getD 0 + 1) := by
  unfold Store.incrD Store.incr
  rw [hf]
  simp only [Bool.false_eq_true, if_false]
  rw [if_neg (by omega)]
  simp

/-! ## IncrementUsage effect lemmas -/

theorem IncrementUsage_failing (key : String) (t : GoTime) (s : Store) :
    (prodLimiter.IncrementUsage key t s).failing = s.failing := by
  unfold Limiter.IncrementUsage
  rw [Store.expire_failing, Store.incrD_failing, Store.expire_failing,
    Store.incrD_failing, Store.incrD_failing]

theorem IncrementUsage_data_ne (key : String) (t : GoTime) (s : Store) (k' : String)
    (h1 : k' ≠ usageTotalKey key) (h2 : k' ≠ usageDailyKey key t.day)
    (h3 : k' ≠ usageHourlyKey key t.day t.hour) :
    (prodLimiter.IncrementUsage key t s).data k' = s.data k' := by
  unfold Limiter.IncrementUsage
  rw [Store.expire_data, Store.incrD_data_ne h3, Store.expire_data,
    Store.incrD_data_ne h2, Store.incrD_data_ne h1]

theorem IncrementUsage_data_daily (key : String) (t : GoTime) (s : Store)
    (hf : s.failing = false)
    (hmax : (s.data (usageDailyKey key t.day)).getD 0 + 1 ≤ int64Max) :
    (prodLimiter.IncrementUsage key t s).data (usageDailyKey key t.day)
      = some ((s.data (usageDailyKey key t.day)).getD 0 + 1) := by
  unfold Limiter.IncrementUsage
  rw [Store.expire_data, Store.incrD_data_ne (usageDailyKey_ne_hourlyKey key key t.day t.day t.hour),
    Store.expire_data]
  rw [Store.incrD_data_self (by rw [Store.incrD_failing]; exact hf)
    (by rw [Store.incrD_data_ne (usageDailyKey_ne_totalKey key key t.day)]; exact hmax),
    Store.incrD_data_ne (usageDailyKey_ne_totalKey key key t.day)]

/-! ## Cleanup loop lemmas -/

theorem cleanupStep_top10 (t : Int) (acc : DynamicSubscriber) (p : String × Nat) :
    (cleanupStep t acc p).top10 = acc.top10 := by
  unfold cleanupStep DynamicSubscriber.removeSubscription DynamicSubscriber.mark
  split
  · split <;> rfl
  · rfl

theorem cleanupStep_protected {t : Int} {acc : DynamicSubscriber} {p : String × Nat}
    {c : String} (hc : c ∈ acc.top10) :
    (cleanupStep t acc p).subscribed c = acc.subscribed c := by
  unfold cleanupStep DynamicSubscriber.removeSubscription DynamicSubscriber.mark
  split
  · split
    · rfl
    · rename_i hnc
      by_cases hcp : c = p.1
      · subst hcp
        exact absurd (List.elem_iff.mpr hc) hnc
      · simp only [if_neg hcp]
  · rfl

theorem cleanup_foldl_top10 (t : Int) (l : List (String × Nat)) :
    ∀ acc : DynamicSubscriber, (l.foldl (cleanupStep t) acc).top10 = acc.top10 := by
  induction l with
  | nil => intro acc; rfl
  | cons p l ih =>
    intro acc
    rw [List.foldl_cons, ih, cleanupStep_top10]

theorem cleanup_foldl_protected (t : Int) (l : List (String × Nat)) :
    ∀ (acc : DynamicSubscriber) (c : String), c ∈ acc.top10 →
      (l.foldl (cleanupStep t) acc).subscribed c = acc.subscribed c := by
  induction l with
  | nil => intro acc c _; rfl
  | cons p l ih =>
    intro acc c hc
    rw [List.foldl_cons, ih _ c (by rw [cleanupStep_top10]; exact hc),
      cleanupStep_protected hc]

theorem cleanup_foldl_removed (t : Int) (l : List (String × Nat)) :
    ∀ (acc : DynamicSubscriber) (c : String), acc.subscribed c = true →
      (l.foldl (cleanupStep t) acc).subscribed c = false →
      c ∉ acc.top10 ∧ ∃ ts, (c, ts) ∈ l ∧ (ts : Int) < t := by
  induction l with
  | nil =>
    intro acc c hsub hrem
    rw [List.foldl_nil] at hrem
    rw [hsub] at hrem
    exact absurd hrem (by simp)
  | cons p l ih =>
    intro acc c hsub hrem
    rw [List.foldl_cons] at hrem
    by_cases h1 : (cleanupStep t acc p).subscribed c = true
    · obtain ⟨hnt, ts, hts, hlt⟩ := ih (cleanupStep t acc p) c h1 hrem
      rw [cleanupStep_top10] at hnt
      exact ⟨hnt, ts, List.mem_cons_of_mem p hts, hlt⟩
    · unfold cleanupStep DynamicSubscriber.removeSubscription DynamicSubscriber.mark at h1
      by_cases hst : (p.2 : Int) < t
      · rw [if_pos hst] at h1
        by_cases htop : ({ acc with ledger := hdel acc.ledger p.1 } :
            DynamicSubscriber).top10.contains p.1
        · rw [if_pos htop] at h1
          exact absurd hsub h1
        · rw [if_neg htop] at h1
          by_cases hcp : c = p.1
          · subst hcp
            refine ⟨fun hmem => htop (List.elem_iff.mpr hmem), p.2, ?_, hst⟩
            exact List.mem_cons_self _ _
          · simp only [if_neg hcp] at h1
            exact absurd hsub h1
      · rw [if_neg hst] at h1
        exact absurd hsub h1

/-- **C2**: a run of the staleness-pruning operation never removes a
protected-set (top-10) member from the in-memory subscription set, no
matter how old or absent its access-ledger entry is; every code whose
subscription the run does remove is a non-protected code with a ledger
entry older than the 24h threshold. -/
theorem cleanupStalePairs_protected_immunity (d : DynamicSubscriber) (now : Nat)
    (c : String) :
    (c ∈ d.top10 → (d.cleanupStalePairs now).subscribed c = d.subscribed c)
    ∧ ((d.cleanupStalePairs now).subscribed c = false → d.subscribed c = true →
        c ∉ d.top10 ∧ ∃ ts, (c, ts) ∈ d.ledger ∧ (ts : Int) < (now : Int) - 86400) := by
  refine ⟨fun hc => ?_, fun hrem hsub => ?_⟩
  · exact cleanup_foldl_protected _ d.ledger d c hc
  · exact cleanup_foldl_removed _ d.ledger d c hsub hrem

/-- Witness for C2: with protected set `["BTC"]` and both ledger entries
long stale, pruning keeps `BTC` subscribed and removes only `SOL`. -/
theorem cleanupStalePairs_protected_immunity_witness :
    (dStale.cleanupStalePairs 100000).subscribed "BTC" = dStale.subscribed "BTC"
    ∧ ("SOL" ∉ dStale.top10
        ∧ ∃ ts, ("SOL", ts) ∈ dStale.ledger ∧ (ts : Int) < (100000 : Int) - 86400) :=
  ⟨(cleanupStalePairs_protected_immunity dStale 100000 "BTC").1 (by decide),
    (cleanupStalePairs_protected_immunity dStale 100000 "SOL").2 (by decide) (by decide)⟩

/-- **C4**: requesting the same new code twice issues exactly one subscribe
request (the second call sees the code already subscribed), and requesting
an already-subscribed code changes nothing in the subscription set and
sends nothing. -/
theorem OnPairRequested_idempotent (d : DynamicSubscriber) (c : String) (t1 t2 : Nat)
    (sk : Bool) :
    (d.subscribed c = false → d.wsPresent = true → d.ws.conn = true →
      (d.OnPairRequested t1 c true).2
          ++ ((d.OnPairRequested t1 c true).1.OnPairRequested t2 c sk).2 = [[c]]
        ∧ (d.OnPairRequested t1 c true).1.subscribed c = true)
    ∧ (d.subscribed c = true →
        (d.OnPairRequested t1 c sk).1.subscribed = d.subscribed
          ∧ (d.OnPairRequested t1 c sk).2 = []) := by
  constructor
  · intro h1 h2 h3
    simp [DynamicSubscriber.OnPairRequested, DynamicSubscriber.addSubscription,
      DynamicSubscriber.mark, WSClient.doSubscribe, h1, h2, h3]
  · intro h1
    simp [DynamicSubscriber.OnPairRequested, h1]

/-- Witness for C4: two back-to-back requests for the fresh code `SOL` on a
connected client produce exactly one subscribe request. -/
theorem OnPairRequested_idempotent_witness :
    (dInit.OnPairRequested 5 "SOL" true).2
        ++ ((dInit.OnPairRequested 5 "SOL" true).1.OnPairRequested 6 "SOL" true).2
      = [["SOL"]] :=
  ((OnPairRequested_idempotent dInit "SOL" 5 6 true).1 rfl rfl rfl).1

/-- **C7**: when the subscribe send fails, `addSubscription` leaves the
whole subscriber state unchanged (in particular the code is not marked
subscribed) and delivers nothing, so the next access for the code retries
the subscribe: it sends the request and, on success, marks the code. -/
theorem addSubscription_send_failure (d : DynamicSubscriber) (c : String) (t : Nat)
    (h1 : d.subscribed c = false) (h2 : d.wsPresent = true) (h3 : d.ws.conn = true) :
    d.addSubscription c false = (d, [])
    ∧ (d.OnPairRequested t c true).2 = [[c]]
    ∧ (d.OnPairRequested t c true).1.subscribed c = true := by
  refine ⟨?_, ?_, ?_⟩ <;>
    simp [DynamicSubscriber.addSubscription, DynamicSubscriber.OnPairRequested,
      DynamicSubscriber.mark, WSClient.doSubscribe, h1, h2, h3]

/-- Witness for C7: a failed send for `SOL` leaves `dInit` untouched and
the retry on next access issues the subscribe request. -/
theorem addSubscription_send_failure_witness :
    dInit.addSubscription "SOL" false = (dInit, [])
    ∧ (dInit.OnPairRequested 7 "SOL" true).2 = [["SOL"]] :=
  ⟨(addSubscription_send_failure dInit "SOL" 7 rfl rfl rfl).1,
    (addSubscription_send_failure dInit "SOL" 7 rfl rfl rfl).2.1⟩

/-- **C8**: when the streaming client or its connection is nil, a request
for a new code marks it subscribed without sending any subscribe request,
and from then on any access to a subscribed code sends nothing. -/
theorem OnPairRequested_nil_conn_marks (d : DynamicSubscriber) (c : String) (t t' : Nat)
    (sk sk' : Bool) (h1 : d.subscribed c = false)
    (h2 : ¬(d.wsPresent = true ∧ d.ws.conn = true)) :
    ((d.OnPairRequested t c sk).2 = [] ∧ (d.OnPairRequested t c sk).1.subscribed c = true)
    ∧ (∀ e : DynamicSubscriber, e.subscribed c = true → (e.OnPairRequested t' c sk').2 = []) := by
  constructor
  · simp [DynamicSubscriber.OnPairRequested, DynamicSubscriber.addSubscription,
      DynamicSubscriber.mark, h1, h2]
  · intro e he
    simp [DynamicSubscriber.OnPairRequested, he]

/-- A subscriber whose client reference exists but whose connection is nil. -/
def dNoConn : DynamicSubscriber := ⟨true, ⟨false, fun _ => none, []⟩, [], fun _ => false, []⟩

/-- Witness for C8: with a nil connection, requesting `SOL` sends nothing
yet marks it subscribed, and the following access sends nothing either. -/
theorem OnPairRequested_nil_conn_marks_witness :
    ((dNoConn.OnPairRequested 3 "SOL" true).2 = []
      ∧ (dNoConn.OnPairRequested 3 "SOL" true).1.subscribed "SOL" = true)
    ∧ ((dNoConn.OnPairRequested 3 "SOL" true).1.OnPairRequested 4 "SOL" true).2 = [] := by
  have h := OnPairRequested_nil_conn_marks dNoConn "SOL" 3 4 true true rfl (by simp [dNoConn])
  exact ⟨h.1, h.2 _ h.1.2⟩

/-- **C6**: per inbound frame, a decode failure or an empty `code`/`price`
field leaves the quote cache untouched; a valid update overwrites exactly
its own code's entry with the decoded quote marked market-open. -/
theorem readPump_cache_semantics (w : WSClient) (m : Option WSPriceUpdate) :
    ((∀ u, m = some u → u.Code = "" ∨ u.Price = "") → (w.handleMessage m).cache = w.cache)
    ∧ (∀ u, m = some u → u.Code ≠ "" → u.Price ≠ "" →
        (w.handleMessage m).cache u.Code
            = some ⟨u.Code, u.Price, u.Ask, u.Bid, ⟨true, "", "", ""⟩⟩
          ∧ ∀ c, c ≠ u.Code → (w.handleMessage m).cache c = w.cache c) := by
  constructor
  · intro h
    cases m with
    | none => rfl
    | some u => simp [WSClient.handleMessage, h u rfl]
  · intro u hm h1 h2
    subst hm
    refine ⟨by simp [WSClient.handleMessage, h1, h2], fun c hc => ?_⟩
    simp [WSClient.handleMessage, h1, h2, hc]

/-- Witness for C6: a valid update for `BTC` lands in the cache with the
market-open flag forced on, while a control frame with empty fields leaves
the cache unchanged. -/
theorem readPump_cache_semantics_witness :
    (wsInit.handleMessage (some ⟨"BTC", "42", "43", "41", ⟨false, "", "", ""⟩⟩)).cache "BTC"
        = some ⟨"BTC", "42", "43", "41", ⟨true, "", "", ""⟩⟩
    ∧ (wsInit.handleMessage (some ⟨"", "", "", "", ⟨false, "", "", ""⟩⟩)).cache
        = wsInit.cache :=
  ⟨((readPump_cache_semantics wsInit
        (some ⟨"BTC", "42", "43", "41", ⟨false, "", "", ""⟩⟩)).2 _ rfl
      (by decide) (by decide)).1,
    (readPump_cache_semantics wsInit (some ⟨"", "", "", "", ⟨false, "", "", ""⟩⟩)).1
      (fun u hu => by cases hu; exact Or.inl rfl)⟩

/-- Counterexample to **C3** as stated: after subscribing the protected set
in bulk and then adding `SOL` on demand, `SOL` is in the subscription set,
yet the reconnect path re-subscribes only the stored bulk pair list, which
does not contain `SOL`. -/
theorem keepAlive_reconnect_missing_dynamic_cex :
    ((dInit.subscribeTop10 true).1.OnPairRequested 5 "SOL" true).1.subscribed "SOL" = true
    ∧ ∀ ps ∈ ((((dInit.subscribeTop10 true).1.OnPairRequested 5 "SOL" true).1).ws.keepAliveReconnect
        true true).2, "SOL" ∉ ps := by
  decide

/-- **C3 (amended)**: after a successful reconnect, a fresh subscribe
request is issued for exactly the pair list stored by the most recent bulk
`Subscribe` call (when non-empty and the write succeeds); on-demand codes
added via `OnPairRequested` never enter that stored list. -/
theorem keepAliveReconnect_resubscribes_stored_pairs (w : WSClient) (sendOk : Bool) :
    ((w.keepAliveReconnect true sendOk).2
        = if w.pairs ≠ [] ∧ sendOk = true then [w.pairs] else [])
    ∧ (∀ (d : DynamicSubscriber) (t : Nat) (c : String) (sk : Bool),
        (d.OnPairRequested t c sk).1.ws.pairs = d.ws.pairs) := by
  constructor
  · by_cases hp : w.pairs = [] <;> by_cases hs : sendOk <;>
      simp [WSClient.keepAliveReconnect, WSClient.doSubscribe, hp, hs]
  · intro d t c sk
    simp only [DynamicSubscriber.OnPairRequested]
    split
    · rfl
    · simp only [DynamicSubscriber.addSubscription]
      split
      · rfl
      · split
        · split <;> rfl
        · rfl

/-! ## Fixed-window rate limiting (C1) -/

theorem Allow_step (key : String) (now : Nat) (s : Store) (hf : s.failing = false)
    (hv : (s.data (ratelimitKey key now)).getD 0 + 1 ≤ int64Max) :
    (prodLimiter.Allow key now s).1
        = (decide ((s.data (ratelimitKey key now)).getD 0 + 1 ≤ 2),
            (if (2 : Int) - ((s.data (ratelimitKey key now)).getD 0 + 1) < 0 then 0
              else 2 - ((s.data (ratelimitKey key now)).getD 0 + 1)), false)
    ∧ (prodLimiter.Allow key now s).2.failing = false
    ∧ (prodLimiter.Allow key now s).2.data (ratelimitKey key now)
        = some ((s.data (ratelimitKey key now)).getD 0 + 1)
    ∧ ∀ k', k' ≠ ratelimitKey key now →
        (prodLimiter.Allow key now s).2.data k' = s.data k' := by
  have hincr : s.incr (ratelimitKey key now)
      = .ok ((s.data (ratelimitKey key now)).getD 0 + 1,
          { s with data := fun k' => if k' = ratelimitKey key now
              then some ((s.data (ratelimitKey key now)).getD 0 + 1)
              else s.data k' }) := by
    unfold Store.incr
    rw [hf]
    simp only [Bool.false_eq_true, if_false]
    rw [if_neg (by omega)]
  simp only [Limiter.Allow]
  rw [hincr]
  refine ⟨rfl, ?_, ?_, ?_⟩
  · simp only
    split <;> simp [Store.expire_failing, hf]
  · simp only
    split <;> simp [Store.expire_data]
  · intro k' hk'
    simp only
    split <;> simp [Store.expire_data, hk']

theorem allowN_state (key : String) (now : Nat) (s0 : Store) (hf : s0.failing = false)
    (h0 : s0.data (ratelimitKey key now) = none) :
    ∀ n : Nat, (n : Int) ≤ int64Max →
      (allowN key now n s0).failing = false
      ∧ (allowN key now n s0).data (ratelimitKey key now)
          = (if n = 0 then none else some (n : Int))
      ∧ ∀ k', k' ≠ ratelimitKey key now → (allowN key now n s0).data k' = s0.data k' := by
  intro n
  induction n with
  | zero =>
    intro _
    exact ⟨hf, by simpa using h0, fun k' _ => rfl⟩
  | succ n ih =>
    intro hmax
    have hmax' : (n : Int) ≤ int64Max := by
      have : ((n : Int)) ≤ ((n : Nat) + 1 : Nat) := by push_cast; omega
      omega
    obtain ⟨ihf, ihk, ihloc⟩ := ih hmax'
    have hget : ((allowN key now n s0).data (ratelimitKey key now)).getD 0 = (n : Int) := by
      rw [ihk]
      rcases Nat.eq_zero_or_pos n with hn | hn
      · simp [hn]
      · rw [if_neg (by omega)]
        rfl
    have hb : ((allowN key now n s0).data (ratelimitKey key now)).getD 0 + 1 ≤ int64Max := by
      rw [hget]
      push_cast at hmax
      omega
    obtain ⟨-, rf, rk, rloc⟩ := Allow_step key now (allowN key now n s0) ihf hb
    refine ⟨?_, ?_, ?_⟩
    · exact rf
    · show (prodLimiter.Allow key now (allowN key now n s0)).2.data (ratelimitKey key now) = _
      rw [rk, hget, if_neg (by omega)]
      push_cast
      ring_nf
    · intro k' hk'
      show (prodLimiter.Allow key now (allowN key now n s0)).2.data k' = s0.data k'
      rw [rloc k' hk', ihloc k' hk']

/-- **C1**: with the production limit 2 and a one-second window, the n-th
`Allow` call for a key within one window leaves the window counter at n and
returns `allowed = (n <= 2)` and `remaining` clamped at `max (2 - n) 0`,
and the first call of the following window window is allowed again with
remaining 1. -/
theorem Allow_fixed_window (key : String) (now : Nat) (n : Nat) (s0 : Store)
    (hn1 : 1 ≤ n) (hmax : (n : Int) ≤ int64Max) (hf : s0.failing = false)
    (h0 : s0.data (ratelimitKey key now) = none)
    (h1 : s0.data (ratelimitKey key (now + 1)) = none) :
    (prodLimiter.Allow key now (allowN key now (n - 1) s0)).1
        = (decide ((n : Int) ≤ 2), max (2 - (n : Int)) 0, false)
    ∧ (prodLimiter.Allow key now (allowN key now (n - 1) s0)).2.data (ratelimitKey key now)
        = some (n : Int)
    ∧ (prodLimiter.Allow key (now + 1) (allowN key now n s0)).1 = (true, 1, false) := by
  obtain ⟨m, rfl⟩ : ∃ m, n = m + 1 := ⟨n - 1, by omega⟩
  simp only [Nat.add_sub_cancel]
  have hmax' : (m : Int) ≤ int64Max := by push_cast at hmax; omega
  obtain ⟨mf, mk, mloc⟩ := allowN_state key now s0 hf h0 m hmax'
  have hget : ((allowN key now m s0).data (ratelimitKey key now)).getD 0 = (m : Int) := by
    rw [mk]
    rcases Nat.eq_zero_or_pos m with hm | hm
    · simp [hm]
    · rw [if_neg (by omega)]
      rfl
  have hb : ((allowN key now m s0).data (ratelimitKey key now)).getD 0 + 1 ≤ int64Max := by
    rw [hget]
    push_cast at hmax
    omega
  obtain ⟨r1, -, rk, -⟩ := Allow_step key now (allowN key now m s0) mf hb
  have hcast : ((m : Int)) + 1 = ((m + 1 : Nat) : Int) := by push_cast; ring
  refine ⟨?_, ?_, ?_⟩
  · rw [r1, hget, hcast]
    refine congrArg₂ Prod.mk rfl (congrArg₂ Prod.mk ?_ rfl)
    split <;> omega
  · rw [rk, hget, hcast]
  · obtain ⟨nf, -, nloc⟩ := allowN_state key now s0 hf h0 (m + 1) hmax
    have hk2 : (allowN key now (m + 1) s0).data (ratelimitKey key (now + 1)) = none := by
      rw [nloc _ (ratelimitKey_window_ne (by omega)), h1]
    obtain ⟨r1', -, -, -⟩ := Allow_step key (now + 1) (allowN key now (m + 1) s0) nf
      (by rw [hk2]; norm_num [int64Max])
    rw [r1', hk2]
    norm_num

/-- Witness for C1 (Scenario B): with limit 2, three calls in one window
return `(true,1)`, `(true,0)`, `(false,0)` while the counter reads 1, 2, 3,
and the first call of the next window is allowed again. -/
theorem Allow_fixed_window_witness :
    (prodLimiter.Allow "k1" 0 (allowN "k1" 0 0 emptyStore)).1 = (true, 1, false)
    ∧ (prodLimiter.Allow "k1" 0 (allowN "k1" 0 1 emptyStore)).1 = (true, 0, false)
    ∧ (prodLimiter.Allow "k1" 0 (allowN "k1" 0 2 emptyStore)).1 = (false, 0, false)
    ∧ (prodLimiter.Allow "k1" 0 (allowN "k1" 0 2 emptyStore)).2.data (ratelimitKey "k1" 0)
        = some 3
    ∧ (prodLimiter.Allow "k1" 1 (allowN "k1" 0 3 emptyStore)).1 = (true, 1, false) := by
  have h1 := Allow_fixed_window "k1" 0 1 emptyStore (by omega) (by decide) rfl rfl rfl
  have h2 := Allow_fixed_window "k1" 0 2 emptyStore (by omega) (by decide) rfl rfl rfl
  have h3 := Allow_fixed_window "k1" 0 3 emptyStore (by omega) (by decide) rfl rfl rfl
  refine ⟨?_, ?_, ?_, ?_, ?_⟩
  · simpa using h1.1
  · simpa using h2.1
  · simpa using h3.1
  · simpa using h3.2.1
  · exact h3.2.2

/-! ## Middleware ordering and fail-open (C5, C10) -/

theorem CheckGlobalLimit_data_ne (s : Store) (k' : String) (h : k' ≠ globalUsageKey) :
    (prodLimiter.CheckGlobalLimit s).2.data k' = s.data k' := by
  unfold Limiter.CheckGlobalLimit
  cases hi : s.incr globalUsageKey with
  | error e => rfl
  | ok p =>
    obtain ⟨c, s'⟩ := p
    obtain ⟨-, -, hdata, -, -⟩ := Store.incr_ok hi
    simp only
    rw [hdata]
    simp [h]

/-- **C5**: whenever the middleware rejects a request at the global
admission check, the per-client fixed-window counter for that request is
left untouched — the global check runs first and short-circuits before
`Allow` can increment anything. -/
theorem middleware_global_check_first (key : String) (now : Nat) (s : Store)
    (h : (rateLimitMiddleware key now s).1 = Outcome.rejectedGlobal) :
    (rateLimitMiddleware key now s).2.data (ratelimitKey key now)
      = s.data (ratelimitKey key now) := by
  unfold rateLimitMiddleware at h ⊢
  cases hgr : prodLimiter.CheckGlobalLimit s with
  | mk g1 s1 =>
    obtain ⟨ga, grem⟩ := g1
    rw [hgr] at h
    by_cases hga : ga = true
    · subst hga
      simp only [not_true, if_false] at h ⊢
      cases har : prodLimiter.Allow key now s1 with
      | mk a1 s2 =>
        obtain ⟨al, rem, ef⟩ := a1
        rw [har] at h
        rcases ef with _ | _ <;> rcases al with _ | _ <;> simp at h
    · have hga' : ga = false := by
        cases ga
        · rfl
        · exact absurd rfl hga
      subst hga'
      simp only [Bool.false_eq_true, not_false_eq_true, if_true]
      have hs1 : s1 = (prodLimiter.CheckGlobalLimit s).2 := by rw [hgr]
      rw [hs1]
      exact CheckGlobalLimit_data_ne s _ (ratelimitKey_ne_globalUsageKey key now)

/-- Witness for C5: a store whose global counter already sits at the cap
makes the middleware reject globally, and the per-client window counter is
untouched. -/
theorem middleware_global_check_first_witness :
    (rateLimitMiddleware "k1" 0 globalFullStore).2.data (ratelimitKey "k1" 0)
      = globalFullStore.data (ratelimitKey "k1" 0) :=
  middleware_global_check_first "k1" 0 globalFullStore (by decide)

/-- **C10**: when the per-client rate-limit check errors against the shared
store (while the global check passed), the middleware lets the request
proceed instead of rejecting it. -/
theorem rateLimit_fail_open (key : String) (now : Nat) (s : Store)
    (hga : (prodLimiter.CheckGlobalLimit s).1.1 = true)
    (herr : (prodLimiter.Allow key now (prodLimiter.CheckGlobalLimit s).2).1.2.2 = true) :
    (rateLimitMiddleware key now s).1 = Outcome.proceeded := by
  unfold rateLimitMiddleware
  cases hgr : prodLimiter.CheckGlobalLimit s with
  | mk g1 s1 =>
    obtain ⟨ga, grem⟩ := g1
    rw [hgr] at hga herr
    simp only at hga herr
    subst hga
    simp only [not_true, if_false]
    cases har : prodLimiter.Allow key now s1 with
    | mk a1 s2 =>
      obtain ⟨al, rem, ef⟩ := a1
      rw [har] at herr
      simp only at herr
      subst herr
      rfl

/-- Witness for C10: with the store in outage, the global check fails open
and the per-client `Allow` errors, and the request proceeds. -/
theorem rateLimit_fail_open_witness :
    (rateLimitMiddleware "k1" 0 failingStore).1 = Outcome.proceeded :=
  rateLimit_fail_open "k1" 0 failingStore (by decide) (by decide)

/-! ## Usage accounting (C9) -/

theorem incrN_failing (key : String) (t : GoTime) :
    ∀ (n : Nat) (s : Store), (incrN key t n s).failing = s.failing := by
  intro n
  induction n with
  | zero => intro s; rfl
  | succ n ih =>
    intro s
    show (prodLimiter.IncrementUsage key t (incrN key t n s)).failing = s.failing
    rw [IncrementUsage_failing, ih]

theorem incrN_data_ne (key : String) (t : GoTime) (k' : String)
    (h1 : k' ≠ usageTotalKey key) (h2 : k' ≠ usageDailyKey key t.day)
    (h3 : k' ≠ usageHourlyKey key t.day t.hour) :
    ∀ (n : Nat) (s : Store), (incrN key t n s).data k' = s.data k' := by
  intro n
  induction n with
  | zero => intro s; rfl
  | succ n ih =>
    intro s
    show (prodLimiter.IncrementUsage key t (incrN key t n s)).data k' = s.data k'
    rw [IncrementUsage_data_ne key t _ k' h1 h2 h3, ih]

theorem incrN_daily (key : String) (t : GoTime) (s0 : Store) (hf : s0.failing = false)
    (h0 : s0.data (usageDailyKey key t.day) = none) :
    ∀ n : Nat, (n : Int) ≤ int64Max →
      (incrN key t n s0).data (usageDailyKey key t.day)
        = (if n = 0 then none else some (n : Int)) := by
  intro n
  induction n with
  | zero => intro _; simpa using h0
  | succ n ih =>
    intro hmax
    have hmax' : (n : Int) ≤ int64Max := by push_cast at hmax; omega
    have ihk := ih hmax'
    have hget : ((incrN key t n s0).data (usageDailyKey key t.day)).getD 0 = (n : Int) := by
      rw [ihk]
      rcases Nat.eq_zero_or_pos n with hn | hn
      · simp [hn]
      · rw [if_neg (by omega)]
        rfl
    show (prodLimiter.IncrementUsage key t (incrN key t n s0)).data (usageDailyKey key t.day) = _
    rw [IncrementUsage_data_daily key t _ (by rw [incrN_failing]; exact hf)
      (by rw [hget]; push_cast at hmax; omega), hget, if_neg (by omega)]
    push_cast
    ring_nf

/-- **C9**: `a` usage increments today plus `b` increments yesterday (all
within the 7-day window) make the query-time bucket sum
`GetLast7DaysUsage` return `a + b`, and the two `GetDailyUsage` reads for
the days involved also sum to `a + b`. -/
theorem usage_seven_day_sum (key : String) (now : GoTime) (hr1 hr2 : Nat) (a b : Nat)
    (s0 : Store) (hf : s0.failing = false) (hday : 2 ≤ now.day)
    (hmaxa : (a : Int) ≤ int64Max) (hmaxb : (b : Int) ≤ int64Max)
    (hinit : ∀ i, i < 7 → s0.data (usageDailyKey key (now.day - i)) = none) :
    prodLimiter.GetLast7DaysUsage key now
        (incrN key ⟨now.day - 1, hr2⟩ b (incrN key ⟨now.day, hr1⟩ a s0)) = (a : Int) + b
    ∧ (prodLimiter.GetDailyUsage key ⟨now.day, hr1⟩
          (incrN key ⟨now.day - 1, hr2⟩ b (incrN key ⟨now.day, hr1⟩ a s0))).1
        + (prodLimiter.GetDailyUsage key ⟨now.day - 1, hr2⟩
            (incrN key ⟨now.day - 1, hr2⟩ b (incrN key ⟨now.day, hr1⟩ a s0))).1
      = (a : Int) + b := by
  have hBf : (incrN key ⟨now.day - 1, hr2⟩ b (incrN key ⟨now.day, hr1⟩ a s0)).failing
      = false := by
    rw [incrN_failing, incrN_failing]
    exact hf
  -- today's bucket: written by the first batch, untouched by the second
  have f1 : (incrN key ⟨now.day, hr1⟩ a s0).data (usageDailyKey key now.day)
      = (if a = 0 then none else some (a : Int)) :=
    incrN_daily key ⟨now.day, hr1⟩ s0 hf (by simpa using hinit 0 (by omega)) a hmaxa
  have f2 : (incrN key ⟨now.day - 1, hr2⟩ b (incrN key ⟨now.day, hr1⟩ a s0)).data
      (usageDailyKey key now.day) = (if a = 0 then none else some (a : Int)) := by
    rw [incrN_data_ne key ⟨now.day - 1, hr2⟩ (usageDailyKey key now.day)
      (usageDailyKey_ne_totalKey key key now.day)
      (usageDailyKey_day_ne (show now.day ≠ now.day - 1 by omega))
      (usageDailyKey_ne_hourlyKey key key now.day (now.day - 1) hr2)]
    exact f1
  -- yesterday's bucket: untouched by the first batch, written by the second
  have f3 : (incrN key ⟨now.day, hr1⟩ a s0).data (usageDailyKey key (now.day - 1))
      = none := by
    rw [incrN_data_ne key ⟨now.day, hr1⟩ (usageDailyKey key (now.day - 1))
      (usageDailyKey_ne_totalKey key key (now.day - 1))
      (usageDailyKey_day_ne (show now.day - 1 ≠ now.day by omega))
      (usageDailyKey_ne_hourlyKey key key (now.day - 1) now.day hr1)]
    exact hinit 1 (by omega)
  have f4 : (incrN key ⟨now.day - 1, hr2⟩ b (incrN key ⟨now.day, hr1⟩ a s0)).data
      (usageDailyKey key (now.day - 1)) = (if b = 0 then none else some (b : Int)) :=
    incrN_daily key ⟨now.day - 1, hr2⟩ _ (by rw [incrN_failing]; exact hf) f3 b hmaxb
  -- the remaining five buckets of the window stay empty
  have fother : ∀ i, 2 ≤ i → i < 7 →
      (incrN key ⟨now.day - 1, hr2⟩ b (incrN key ⟨now.day, hr1⟩ a s0)).data
        (usageDailyKey key (now.day - i)) = none := by
    intro i h2i hi7
    rw [incrN_data_ne key ⟨now.day - 1, hr2⟩ (usageDailyKey key (now.day - i))
      (usageDailyKey_ne_totalKey key key (now.day - i))
      (usageDailyKey_day_ne (show now.day - i ≠ now.day - 1 by omega))
      (usageDailyKey_ne_hourlyKey key key (now.day - i) (now.day - 1) hr2)]
    rw [incrN_data_ne key ⟨now.day, hr1⟩ (usageDailyKey key (now.day - i))
      (usageDailyKey_ne_totalKey key key (now.day - i))
      (usageDailyKey_day_ne (show now.day - i ≠ now.day by omega))
      (usageDailyKey_ne_hourlyKey key key (now.day - i) now.day hr1)]
    exact hinit i hi7
  have g2 := fother 2 (by omega) (by omega)
  have g3 := fother 3 (by omega) (by omega)
  have g4 := fother 4 (by omega) (by omega)
  have g5 := fother 5 (by omega) (by omega)
  have g6 := fother 6 (by omega) (by omega)
  have hrange : List.range 7 = [0, 1, 2, 3, 4, 5, 6] := by decide
  constructor
  · unfold Limiter.GetLast7DaysUsage
    rw [hrange]
    simp only [List.foldl_cons, List.foldl_nil, Store.get, hBf, Bool.false_eq_true,
      if_false, Nat.sub_zero, f2, f4, g2, g3, g4, g5, g6]
    rcases Nat.eq_zero_or_pos a with ha | ha <;> rcases Nat.eq_zero_or_pos b with hb | hb
    · simp [ha, hb]
    · simp [ha, if_neg (show ¬b = 0 by omega)]
    · simp [hb, if_neg (show ¬a = 0 by omega)]
    · simp only [if_neg (show ¬a = 0 by omega), if_neg (show ¬b = 0 by omega)]
      ring
  · unfold Limiter.GetDailyUsage
    simp only [Store.get, hBf, Bool.false_eq_true, if_false, f2, f4]
    rcases Nat.eq_zero_or_pos a with ha | ha <;> rcases Nat.eq_zero_or_pos b with hb | hb
    · simp [ha, hb]
    · simp [ha, if_neg (show ¬b = 0 by omega)]
    · simp [hb, if_neg (show ¬a = 0 by omega)]
    · simp only [if_neg (show ¬a = 0 by omega), if_neg (show ¬b = 0 by omega)]

/-- Witness for C9 (Scenario C): 3 + 2 increments across two adjacent days
yield a 7-day aggregate of 5, matching the sum of the two daily reads. -/
theorem usage_seven_day_sum_witness :
    prodLimiter.GetLast7DaysUsage "k1" ⟨10, 0⟩
        (incrN "k1" ⟨9, 0⟩ 2 (incrN "k1" ⟨10, 0⟩ 3 emptyStore)) = 5
    ∧ (prodLimiter.GetDailyUsage "k1" ⟨10, 0⟩
          (incrN "k1" ⟨9, 0⟩ 2 (incrN "k1" ⟨10, 0⟩ 3 emptyStore))).1
        + (prodLimiter.GetDailyUsage "k1" ⟨9, 0⟩
            (incrN "k1" ⟨9, 0⟩ 2 (incrN "k1" ⟨10, 0⟩ 3 emptyStore))).1 = 5 := by
  have h := usage_seven_day_sum "k1" ⟨10, 0⟩ 0 0 3 2 emptyStore rfl (by decide)
    (by decide) (by decide) (fun i _ => rfl)
  exact ⟨by simpa using h.1, by simpa using h.2⟩

end PriceForAgent
